import Mathlib

/-!
Shallow embedding of the `cheese` reactive-value library
(`src/observable.ts`).

A `BasicObservable` cell holds a current value, a subscriber list, a
lifecycle state (`unsealed` / `sealed` / `muted`), a value history and
optional debounce/throttle timing configuration.  Writes go through an
identity-deduplicated notification pipeline that may drop (mute,
throttle) or defer (debounce) the delivery to subscribers.

Modelling choices:
* subscriber functions are identified by a `Nat` reference (JavaScript
  compares subscribers by reference identity in `unsubscribe`'s
  `filter`); a delivery to a subscriber is recorded as an `Event`;
* the JavaScript timers become explicit fields holding the absolute
  expiry time (and, for debounce, the captured `(newValue, oldValue)`
  closure arguments); `elapse` models the event loop running every
  timer callback that is due by a given time;
* a thrown `SealedMutationError` becomes `error = some .sealedMutation`
  in a `CallResult`; the source throws before mutating anything, so on
  error the returned cell is the input cell.
-/

set_option linter.unusedSectionVars false

namespace Cheese

/-- Lifecycle state of a cell (`ObservableState` in `types.ts`). -/
inductive ObservableState where
  | unsealed
  | sealed
  | muted
deriving DecidableEq, Repr

/-- Timing configuration (`ObservableOptions` in `types.ts`).  A field
that is `none` corresponds to an absent option in JavaScript. -/
structure ObservableOptions where
  debounce : Option Nat := none
  throttle : Option Nat := none
deriving DecidableEq, Repr

/-- JavaScript truthiness of an optional numeric option, as used by
`if (this.options.throttle)` and `if (this.options.debounce)`:
`undefined` and `0` are falsy. -/
def optTruthy : Option Nat → Bool
  | none => false
  | some n => n != 0

/-- One invocation of a subscriber: which subscriber reference was
called, and with which `(newValue, oldValue)` arguments.  The old
value is optional because the immediate invocation in `subscribe`
passes `history[history.length - 2]`, which is `undefined` when the
history has fewer than two entries. -/
structure Event (V : Type) where
  ref : Nat
  newValue : V
  oldValue : Option V
deriving DecidableEq, Repr

/-- The only error kind the library defines. -/
inductive MutationError where
  | sealedMutation
deriving DecidableEq, Repr

/-- The observable cell (`class BasicObservable<T>`).  `debounceTimeout`
stores the pending timer's absolute expiry time together with the
`(newValue, oldValue)` pair captured by the timer callback;
`throttleTimeout` stores the active window's absolute expiry time. -/
structure BasicObservable (V : Type) where
  state : ObservableState
  subscribers : List Nat
  value : V
  options : ObservableOptions
  history : List V
  debounceTimeout : Option (Nat × V × V)
  throttleTimeout : Option Nat
deriving DecidableEq, Repr

/-- Outcome of a method that can throw `SealedMutationError`: the cell
afterwards, the subscriber invocations it produced, and the error if
one was thrown (the throw happens before any mutation, so on error the
cell is returned unchanged). -/
structure CallResult (V : Type) where
  cell : BasicObservable V
  events : List (Event V)
  error : Option MutationError
deriving DecidableEq, Repr

variable {V : Type} [DecidableEq V]

/-- The constructor: stores the value, pushes it onto the (empty)
history, and applies the options. -/
def BasicObservable.create (value : V) (options : ObservableOptions) :
    BasicObservable V :=
  { state := .unsealed
    subscribers := []
    value := value
    options := options
    history := [value]
    debounceTimeout := none
    throttleTimeout := none }

/-- The tail of `_notify` (and the body of the debounce timer
callback): invoke every current subscriber in order with
`(newValue, oldValue)`, then push `newValue` onto the history. -/
def deliver (c : BasicObservable V) (newValue oldValue : V) :
    BasicObservable V × List (Event V) :=
  ({ c with history := c.history ++ [newValue] },
   c.subscribers.map (fun r => ⟨r, newValue, some oldValue⟩))

/-- `_notify(newValue, oldValue)` at absolute time `now`:
1. muted cells drop the notification;
2. identity-equal values drop the notification;
3. with throttle configured, an active throttle window drops the
   notification, otherwise a throttle window is started;
4. with debounce configured, the pending debounce timer (if any) is
   replaced by one expiring at `now + debounce` that captured this
   call's `(newValue, oldValue)`;
5. otherwise subscribers are invoked and the history is extended. -/
def notify (c : BasicObservable V) (now : Nat) (newValue oldValue : V) :
    BasicObservable V × List (Event V) :=
  if c.state = .muted then (c, [])
  else if newValue = oldValue then (c, [])
  else if optTruthy c.options.throttle && c.throttleTimeout.isSome then (c, [])
  else
    let c1 :=
      if optTruthy c.options.throttle then
        { c with throttleTimeout := some (now + c.options.throttle.getD 0) }
      else c
    if optTruthy c1.options.debounce then
      ({ c1 with
           debounceTimeout :=
             some (now + c1.options.debounce.getD 0, newValue, oldValue) }, [])
    else
      deliver c1 newValue oldValue

/-- `set(newValue)` at absolute time `now`: throws if sealed, otherwise
records the old value, assigns the new value immediately, and runs the
notification pipeline. -/
def BasicObservable.set (c : BasicObservable V) (now : Nat) (newValue : V) :
    CallResult V :=
  if c.state = .sealed then ⟨c, [], some .sealedMutation⟩
  else
    let oldValue := c.value
    let c1 := { c with value := newValue }
    let r := notify c1 now newValue oldValue
    ⟨r.1, r.2, none⟩

/-- `get()`. -/
def BasicObservable.get (c : BasicObservable V) : V :=
  c.value

/-- `update(updater)` is `set(updater(get()))`. -/
def BasicObservable.update (c : BasicObservable V) (now : Nat)
    (updater : V → V) : CallResult V :=
  c.set now (updater c.get)

/-- `subscribe(subscriber)`: appends the subscriber and immediately
invokes it once with `(value, history[history.length - 2])`; the
second-to-last history entry is `history.reverse[1]`, absent when the
history has fewer than two entries. -/
def BasicObservable.subscribe (c : BasicObservable V) (ref : Nat) :
    BasicObservable V × Event V :=
  let c1 := { c with subscribers := c.subscribers ++ [ref] }
  (c1, ⟨ref, c1.value, c1.history.reverse.get? 1⟩)

/-- The closure returned by `subscribe`: filters every occurrence of
the exact subscriber reference out of the subscriber list. -/
def BasicObservable.unsubscribe (c : BasicObservable V) (ref : Nat) :
    BasicObservable V :=
  { c with subscribers := c.subscribers.filter (fun s => s ≠ ref) }

/-- `mute()`: throws if sealed, otherwise sets the state to `muted`. -/
def BasicObservable.mute (c : BasicObservable V) : CallResult V :=
  if c.state = .sealed then ⟨c, [], some .sealedMutation⟩
  else ⟨{ c with state := .muted }, [], none⟩

/-- `unmute()`: throws if sealed, otherwise sets the state back to
`unsealed`. -/
def BasicObservable.unmute (c : BasicObservable V) : CallResult V :=
  if c.state = .sealed then ⟨c, [], some .sealedMutation⟩
  else ⟨{ c with state := .unsealed }, [], none⟩

/-- `seal()`: clears the subscriber list and sets the state to
`sealed`.  Note the source performs no sealed check here and does not
touch either timer field. -/
def BasicObservable.seal (c : BasicObservable V) : BasicObservable V :=
  { c with subscribers := [], state := .sealed }

/-- First half of the event loop: the throttle timer callback, which
clears the throttle handle once its expiry is due. -/
def clearDueThrottle (c : BasicObservable V) (t : Nat) : BasicObservable V :=
  match c.throttleTimeout with
  | some e => if e ≤ t then { c with throttleTimeout := none } else c
  | none => c

/-- The event loop advancing to absolute time `t`: every timer whose
expiry is due fires.  The throttle callback clears the throttle
handle; the debounce callback invokes the then-current subscribers
with the captured `(newValue, oldValue)` and pushes the captured new
value onto the history (it re-checks neither the state nor the
subscriber list's origin). -/
def BasicObservable.elapse (c : BasicObservable V) (t : Nat) :
    BasicObservable V × List (Event V) :=
  let c1 := clearDueThrottle c t
  match c1.debounceTimeout with
  | some (e, nv, ov) =>
    if e ≤ t then deliver { c1 with debounceTimeout := none } nv ov
    else (c1, [])
  | none => (c1, [])

/-- A timed sequence of `set` calls: before each call the event loop
advances to the call's time (firing due timers), then the call runs.
All subscriber invocations are collected in order. -/
def runSets : List (Nat × V) → BasicObservable V →
    BasicObservable V × List (Event V)
  | [], c => (c, [])
  | (t, v) :: rest, c =>
    let r1 := c.elapse t
    let r2 := r1.1.set t v
    let r3 := runSets rest r2.cell
    (r3.1, r1.2 ++ r2.events ++ r3.2)

/-- Helper: filtering a value out of a list leaves no occurrence of it. -/
theorem all_ne_filter_ne (l : List Nat) (r : Nat) :
    (l.filter (fun s => s ≠ r)).all (fun s => s != r) = true := by
  induction l with
  | nil => rfl
  | cons a tl ih =>
    by_cases h : a = r <;> simp [List.filter_cons, h, ih]

/-- C1: once a cell is sealed, `set`, `mute` and `unmute` each fail with
`SealedMutationError`, leave the cell (value, state, subscriber list)
unchanged and invoke no subscriber; sealing itself leaves the state
`sealed` with an empty subscriber list, and `get` still returns the
value held before sealing. -/
theorem claim_C1 (c c0 : BasicObservable V) (t : Nat) (v : V)
    (h : c.state = .sealed) :
    ((c.set t v).error = some .sealedMutation ∧ (c.set t v).cell = c ∧
      (c.set t v).events = []) ∧
    (c.mute.error = some .sealedMutation ∧ c.mute.cell = c ∧
      c.mute.events = []) ∧
    (c.unmute.error = some .sealedMutation ∧ c.unmute.cell = c ∧
      c.unmute.events = []) ∧
    (c0.seal.state = .sealed ∧ c0.seal.get = c0.get ∧
      c0.seal.subscribers = []) := by
  simp [BasicObservable.set, BasicObservable.mute, BasicObservable.unmute,
    BasicObservable.seal, BasicObservable.get, h]

/-- Witness for C1 at a concrete sealed cell. -/
theorem claim_C1_witness :
    ((BasicObservable.create (5 : Nat) {}).seal.state = .sealed) ∧
    ((((BasicObservable.create (5 : Nat) {}).seal.set 0 9).error =
          some .sealedMutation ∧
        ((BasicObservable.create (5 : Nat) {}).seal.set 0 9).cell =
          (BasicObservable.create (5 : Nat) {}).seal ∧
        ((BasicObservable.create (5 : Nat) {}).seal.set 0 9).events = []) ∧
      ((BasicObservable.create (5 : Nat) {}).seal.mute.error =
          some .sealedMutation ∧
        (BasicObservable.create (5 : Nat) {}).seal.mute.cell =
          (BasicObservable.create (5 : Nat) {}).seal ∧
        (BasicObservable.create (5 : Nat) {}).seal.mute.events = []) ∧
      ((BasicObservable.create (5 : Nat) {}).seal.unmute.error =
          some .sealedMutation ∧
        (BasicObservable.create (5 : Nat) {}).seal.unmute.cell =
          (BasicObservable.create (5 : Nat) {}).seal ∧
        (BasicObservable.create (5 : Nat) {}).seal.unmute.events = []) ∧
      ((BasicObservable.create (5 : Nat) {}).seal.state = .sealed ∧
        (BasicObservable.create (5 : Nat) {}).seal.get =
          (BasicObservable.create (5 : Nat) {}).get ∧
        (BasicObservable.create (5 : Nat) {}).seal.subscribers = [])) :=
  ⟨by decide,
   claim_C1 ((BasicObservable.create 5 {}).seal)
     (BasicObservable.create 5 {}) 0 9 (by decide)⟩

/-- C10: `seal` performs no sealed check, so sealing an already sealed
cell succeeds (it never throws), leaving the state `sealed` and the
subscriber list empty — unlike `set`, `mute` and `unmute`, which fail
in that state.  In the model `seal` is a total function into the cell
type with no error channel, mirroring the absence of any check in the
source. -/
theorem claim_C10 (c : BasicObservable V) (t : Nat) (v : V) :
    c.seal.seal = c.seal ∧
    c.seal.seal.state = .sealed ∧
    c.seal.seal.subscribers = [] ∧
    (c.seal.set t v).error = some .sealedMutation ∧
    c.seal.mute.error = some .sealedMutation ∧
    c.seal.unmute.error = some .sealedMutation := by
  simp [BasicObservable.set, BasicObservable.mute, BasicObservable.unmute,
    BasicObservable.seal]

/-- C4: on an unsealed, unmuted cell, `set` with the identical value is
a successful no-op: no subscriber invocation, no history append, no
state change at all (the identity check in the pipeline returns before
the throttle and debounce stages). -/
theorem claim_C4 (c : BasicObservable V) (t : Nat)
    (h : c.state = .unsealed) :
    c.set t c.value = ⟨c, [], none⟩ := by
  obtain ⟨st, subs, val, opts, hist, dt, tt⟩ := c
  simp only at h
  subst h
  simp [BasicObservable.set, notify]

/-- Witness for C4 at a concrete unsealed cell. -/
theorem claim_C4_witness :
    ((BasicObservable.create (3 : Nat) {}).state = .unsealed) ∧
    (BasicObservable.create (3 : Nat) {}).set 0
        (BasicObservable.create (3 : Nat) {}).value =
      ⟨BasicObservable.create 3 {}, [], none⟩ :=
  ⟨by decide, claim_C4 (BasicObservable.create 3 {}) 0 (by decide)⟩

/-- C5: `subscribe` appends the subscriber and synchronously produces
exactly one immediate invocation carrying the current value and the
second-to-last history entry (absent when the history has a single
entry, as on the first subscription right after construction); the
unsubscribe operation is idempotent, so a second call has no
additional effect (and, being a total function, cannot throw). -/
theorem claim_C5 (c : BasicObservable V) (ref : Nat) (v : V)
    (opts : ObservableOptions) :
    (c.subscribe ref).1 =
      { c with subscribers := c.subscribers ++ [ref] } ∧
    (c.subscribe ref).2 = ⟨ref, c.value, c.history.reverse.get? 1⟩ ∧
    ((BasicObservable.create v opts).subscribe ref).2 = ⟨ref, v, none⟩ ∧
    (c.unsubscribe ref).unsubscribe ref = c.unsubscribe ref := by
  refine ⟨rfl, rfl, ?_, ?_⟩
  · simp [BasicObservable.create, BasicObservable.subscribe]
  · simp [BasicObservable.unsubscribe, List.filter_filter]

/-- C9: registering the same subscriber reference twice and then
calling one unsubscribe handle removes every occurrence of that
reference (the source filters by identity), so a subsequent delivery
invokes it for none of its registrations. -/
theorem claim_C9 (c : BasicObservable V) (r : Nat) (nv ov : V) :
    ((((c.subscribe r).1.subscribe r).1.unsubscribe r).subscribers =
        c.subscribers.filter (fun s => s ≠ r)) ∧
    ((((c.subscribe r).1.subscribe r).1.unsubscribe r).subscribers.all
        (fun s => s != r) = true) ∧
    ((deliver (((c.subscribe r).1.subscribe r).1.unsubscribe r) nv ov).2.all
        (fun e => e.ref != r) = true) := by
  refine ⟨?_, ?_, ?_⟩
  · simp [BasicObservable.subscribe, BasicObservable.unsubscribe,
      List.filter_append]
  · simp [BasicObservable.subscribe, BasicObservable.unsubscribe,
      List.filter_append, all_ne_filter_ne]
  · simp [BasicObservable.subscribe, BasicObservable.unsubscribe, deliver,
      List.filter_append, List.all_map, Function.comp]
    intro x x1 hmem hne heq
    subst heq
    exact hne

/-- Helper: every `set` call extends the history by some (possibly
empty) suffix. -/
theorem set_history_suffix (c : BasicObservable V) (t : Nat) (w : V) :
    ∃ s, ((c.set t w).cell).history = c.history ++ s := by
  obtain ⟨st, subs, val, opts, hist, dt, tt⟩ := c
  simp only [BasicObservable.set, notify, deliver]
  split_ifs <;> simp

/-- Helper: firing due timers extends the history by some (possibly
empty) suffix. -/
theorem elapse_history_suffix (c : BasicObservable V) (t : Nat) :
    ∃ s, (c.elapse t).1.history = c.history ++ s := by
  have hclear : (clearDueThrottle c t).history = c.history := by
    rcases h : c.throttleTimeout with _ | e
    · simp [clearDueThrottle, h]
    · simp only [clearDueThrottle, h]
      split_ifs <;> rfl
  unfold BasicObservable.elapse
  rcases h : (clearDueThrottle c t).debounceTimeout with _ | ⟨e, nv, ov⟩
  · exact ⟨[], by simp [h, hclear]⟩
  · by_cases he : e ≤ t
    · exact ⟨[nv], by simp [h, he, deliver, hclear]⟩
    · exact ⟨[], by simp [h, he, hclear]⟩

/-- Helper: the last element of a list extended by a singleton. -/
theorem getLast?_append_singleton (l : List V) (a : V) :
    (l ++ [a]).getLast? = some a := by
  rw [List.getLast?_append_cons]
  rfl

/-- C3 counterexample: history is not a log of every value the cell
has held.  A `set` made while muted (first half) or while a throttle
window is active (second half) changes the value without appending it
to the history, so with no notification pending the last history entry
differs from the current value. -/
theorem claim_C3_counterexample :
    ((((BasicObservable.create (0 : Nat) {}).mute).cell.set 0 1).cell.value
        = 1 ∧
      (((BasicObservable.create (0 : Nat) {}).mute).cell.set 0 1).cell.history
        = [0] ∧
      (((BasicObservable.create (0 : Nat)
          {}).mute).cell.set 0 1).cell.debounceTimeout = none ∧
      ¬ ((((BasicObservable.create (0 : Nat)
            {}).mute).cell.set 0 1).cell.history.getLast? =
          some ((((BasicObservable.create (0 : Nat)
            {}).mute).cell.set 0 1).cell.value))) ∧
    (((((BasicObservable.create (0 : Nat)
          ⟨none, some 5⟩).set 0 1).cell.set 3 2).cell.value = 2) ∧
      ((((BasicObservable.create (0 : Nat)
          ⟨none, some 5⟩).set 0 1).cell.set 3 2).cell.history = [0, 1]) ∧
      ((((BasicObservable.create (0 : Nat)
          ⟨none, some 5⟩).set 0 1).cell.set 3 2).cell.debounceTimeout
        = none) ∧
      ¬ ((((BasicObservable.create (0 : Nat)
            ⟨none, some 5⟩).set 0 1).cell.set 3 2).cell.history.getLast? =
          some ((((BasicObservable.create (0 : Nat)
            ⟨none, some 5⟩).set 0 1).cell.set 3 2).cell.value))) := by
  decide

/-- C3 amended: history is non-empty from construction onward,
append-only under every operation, and seeded with the initial value;
but it logs only values whose notification was actually delivered:
a `set` made while the cell is muted, or while a configured throttle
window is active, appends nothing (so the history then lags the
value), while a `set` on an unsealed cell without timing options and
with a distinct value appends that value, after which the last history
entry equals the current value. -/
theorem claim_C3 (v w : V) (opts : ObservableOptions)
    (c : BasicObservable V) (t : Nat) (r : Nat) :
    (BasicObservable.create v opts).history = [v] ∧
    (∃ s, ((c.set t w).cell).history = c.history ++ s) ∧
    (∃ s, (c.elapse t).1.history = c.history ++ s) ∧
    c.mute.cell.history = c.history ∧
    c.unmute.cell.history = c.history ∧
    c.seal.history = c.history ∧
    (c.subscribe r).1.history = c.history ∧
    (c.unsubscribe r).history = c.history ∧
    (c.state = .muted → ((c.set t w).cell).history = c.history) ∧
    (optTruthy c.options.throttle = true → c.throttleTimeout.isSome = true →
      ((c.set t w).cell).history = c.history) ∧
    (c.state = .unsealed → c.options = {} → w ≠ c.value →
      ((c.set t w).cell).history = c.history ++ [w] ∧
      ((c.set t w).cell).history.getLast? =
        some ((c.set t w).cell).value) := by
  refine ⟨rfl, set_history_suffix c t w, elapse_history_suffix c t,
    ?_, ?_, rfl, rfl, rfl, ?_, ?_, ?_⟩
  · unfold BasicObservable.mute
    split_ifs <;> rfl
  · unfold BasicObservable.unmute
    split_ifs <;> rfl
  · intro h
    simp [BasicObservable.set, notify, h]
  · intro h1 h2
    obtain ⟨st, subs, val, opts', hist, dt, tt⟩ := c
    simp only at h1 h2
    simp only [BasicObservable.set, notify, deliver]
    split_ifs <;> simp_all
  · intro h1 h2 h3
    simp [BasicObservable.set, notify, deliver, h1, h2, h3, optTruthy,
      getLast?_append_singleton]

/-- Witness for C3 at concrete cells: a muted cell drops the history
append, a plain unsealed cell appends and re-synchronizes the last
entry. -/
theorem claim_C3_witness :
    ((((BasicObservable.create (0 : Nat) {}).mute).cell.set 0 1).cell.history
        = ((BasicObservable.create (0 : Nat) {}).mute).cell.history) ∧
    ((((BasicObservable.create (0 : Nat) {}).set 0 1).cell.history =
        (BasicObservable.create (0 : Nat) {}).history ++ [1]) ∧
      (((BasicObservable.create (0 : Nat) {}).set 0 1).cell.history.getLast?
        = some (((BasicObservable.create (0 : Nat) {}).set 0 1).cell.value))) := by
  refine ⟨?_, ?_⟩
  · exact (claim_C3 (0 : Nat) 1 {}
      ((BasicObservable.create (0 : Nat) {}).mute).cell 0
      0).2.2.2.2.2.2.2.2.1 (by decide)
  · exact (claim_C3 (0 : Nat) 1 {} (BasicObservable.create (0 : Nat) {}) 0
      0).2.2.2.2.2.2.2.2.2.2 (by decide) (by decide) (by decide)

/-- C6: with a throttle window `T` configured (and no debounce), the
first `set` notifies immediately and opens a window; a second `set`
inside the window is dropped entirely — no subscriber invocation, no
history append, and the value is never delivered later; a third `set`
after the window expires notifies again. -/
theorem claim_C6 (c : BasicObservable V) (T t1 t2 t3 : Nat) (v1 v2 v3 : V)
    (hstate : c.state = .unsealed)
    (hopt : c.options = ⟨none, some T⟩)
    (hT : T ≠ 0)
    (hdt : c.debounceTimeout = none)
    (htt : c.throttleTimeout = none)
    (h12 : t2 < t1 + T)
    (h13 : t1 + T ≤ t3)
    (hv1 : v1 ≠ c.value)
    (hv2 : v2 ≠ v1)
    (hv3 : v3 ≠ v2) :
    runSets [(t1, v1), (t2, v2), (t3, v3)] c =
      ({ c with
          value := v3
          history := c.history ++ [v1] ++ [v3]
          throttleTimeout := some (t3 + T) },
        c.subscribers.map (fun r => ⟨r, v1, some c.value⟩) ++
          c.subscribers.map (fun r => ⟨r, v3, some v2⟩)) := by
  obtain ⟨st, subs, val, opts, hist, dt, tt⟩ := c
  simp only at hstate hopt hdt htt hv1
  subst hstate hopt hdt htt
  have hn12 : ¬ (t1 + T ≤ t2) := by omega
  simp [runSets, BasicObservable.set, notify, deliver, clearDueThrottle,
    BasicObservable.elapse, optTruthy, hT, hv1, hv2, hv3, hn12, h13]

/-- Witness for C6 with `T = 5`, calls at times 0, 3, 5 and one
subscriber. -/
theorem claim_C6_witness :
    ((5 : Nat) ≠ 0 ∧ (3 : Nat) < 0 + 5 ∧ (0 : Nat) + 5 ≤ 5) ∧
    runSets [(0, 1), (3, 2), (5, 3)]
        ((BasicObservable.create (0 : Nat) ⟨none, some 5⟩).subscribe 7).1 =
      ({ ((BasicObservable.create (0 : Nat) ⟨none, some 5⟩).subscribe 7).1
          with
          value := 3
          history :=
            ((BasicObservable.create (0 : Nat)
              ⟨none, some 5⟩).subscribe 7).1.history ++ [1] ++ [3]
          throttleTimeout := some (5 + 5) },
        ((BasicObservable.create (0 : Nat)
            ⟨none, some 5⟩).subscribe 7).1.subscribers.map
          (fun r => ⟨r, 1, some 0⟩) ++
        ((BasicObservable.create (0 : Nat)
            ⟨none, some 5⟩).subscribe 7).1.subscribers.map
          (fun r => ⟨r, 3, some 2⟩)) :=
  ⟨⟨by decide, by decide, by decide⟩,
   claim_C6 ((BasicObservable.create 0 ⟨none, some 5⟩).subscribe 7).1
     5 0 3 5 1 2 3 (by decide) (by decide) (by decide) (by decide)
     (by decide) (by decide) (by decide) (by decide) (by decide)
     (by decide)⟩

/-- Constraint on a timed call sequence: each call happens no earlier
than the previous one, strictly within `D` ms of it, and with a value
distinct from the previous one. -/
def chainB (D : Nat) : Nat → V → List (Nat × V) → Bool
  | _, _, [] => true
  | tp, vp, (t, v) :: rest =>
    (tp ≤ t && t < tp + D && v ≠ vp) && chainB D t v rest

/-- The time and value of the last call of a timed sequence (with the
given start time and value for the empty sequence). -/
def lastTimeVal (t0 : Nat) (v0 : V) : List (Nat × V) → Nat × V
  | [] => (t0, v0)
  | (t, v) :: rest => lastTimeVal t v rest

/-- The value the cell held just before the last call of a timed
sequence (`w` for the empty sequence, the start value `v0` for a
singleton). -/
def lastOld (w v0 : V) : List (Nat × V) → V
  | [] => w
  | (_, v) :: rest => lastOld v0 v rest

/-- Helper: while every `set` of a chain arrives within the debounce
window of the previous one, no subscriber is invoked and the cell just
tracks the latest value, with the pending debounce timer replaced each
time by one capturing the latest `(newValue, oldValue)` pair. -/
theorem runSets_debounce_pending (D : Nat) (hD : D ≠ 0) :
    ∀ (l : List (Nat × V)) (c : BasicObservable V) (tp : Nat) (w : V),
      c.state = .unsealed →
      c.options = ⟨some D, none⟩ →
      c.throttleTimeout = none →
      c.debounceTimeout = some (tp + D, c.value, w) →
      chainB D tp c.value l = true →
      runSets l c =
        ({ c with
            value := (lastTimeVal tp c.value l).2
            debounceTimeout := some ((lastTimeVal tp c.value l).1 + D,
              (lastTimeVal tp c.value l).2, lastOld w c.value l) }, []) := by
  intro l
  induction l with
  | nil =>
    intro c tp w h1 h2 h3 h4 h5
    simp [runSets, lastTimeVal, lastOld, ← h4]
  | cons hd rest ih =>
    obtain ⟨t, v⟩ := hd
    intro c tp w h1 h2 h3 h4 h5
    simp only [chainB, Bool.and_eq_true, decide_eq_true_eq] at h5
    obtain ⟨⟨⟨hle, hlt⟩, hne⟩, hrest⟩ := h5
    have hD' : (D != 0) = true := by simpa using hD
    have hnd : ¬ (tp + D ≤ t) := by omega
    have helapse : c.elapse t = (c, []) := by
      simp [BasicObservable.elapse, clearDueThrottle, h3, h4, hnd]
    have hset : c.set t v =
        ⟨{ c with
            value := v
            debounceTimeout := some (t + D, v, c.value) }, [], none⟩ := by
      obtain ⟨st, subs, val, opts, hist, dt, tt⟩ := c
      simp only at h1 h2 h3 h4 hne
      subst h1 h2 h3 h4
      simp [BasicObservable.set, notify, optTruthy, hD', hne]
    have hrec := ih
      { c with value := v, debounceTimeout := some (t + D, v, c.value) }
      t c.value h1 h2 h3 rfl hrest
    simp only [runSets, helapse, hset, hrec]
    simp [lastTimeVal, lastOld]

/-- C2 counterexample: under `debounce = 10`, the two rapid calls
`set 1` (at 0 ms) and `set 2` (at 1 ms) on a cell holding `0` settle
into exactly one notification — but it carries `(2, 1)`: the old value
is the one from the *last* `set` call (captured by the replaced timer),
not the `0` the cell held before the first call, as the claim states. -/
theorem claim_C2_counterexample :
    ((runSets [(0, 1), (1, 2)]
        ((BasicObservable.create (0 : Nat)
          ⟨some 10, none⟩).subscribe 7).1).2 = []) ∧
    (((runSets [(0, 1), (1, 2)]
        ((BasicObservable.create (0 : Nat)
          ⟨some 10, none⟩).subscribe 7).1).1.elapse 11).2 =
      [⟨7, 2, some 1⟩]) ∧
    ¬ (((runSets [(0, 1), (1, 2)]
        ((BasicObservable.create (0 : Nat)
          ⟨some 10, none⟩).subscribe 7).1).1.elapse 11).2 =
      [⟨7, 2, some 0⟩]) := by
  decide

/-- C2 amended: with `debounce = D` (no throttle, unsealed, unmuted,
successive values distinct), `N ≥ 2` rapid `set` calls each within
less than `D` ms of the previous one produce no notification during
the window, and exactly one notification per subscriber once the
window settles, carrying the last value set together with the value
the cell held immediately before the *last* of the `N` calls (not the
value held before the first call). -/
theorem claim_C2 (c : BasicObservable V) (D : Nat) (hD : D ≠ 0)
    (t1 : Nat) (v1 : V) (l : List (Nat × V)) (tEnd : Nat)
    (hstate : c.state = .unsealed)
    (hopt : c.options = ⟨some D, none⟩)
    (hdt : c.debounceTimeout = none)
    (htt : c.throttleTimeout = none)
    (hchain : chainB D t1 c.value ((t1, v1) :: l) = true)
    (hlen : l ≠ [])
    (hEnd : (lastTimeVal t1 v1 l).1 + D ≤ tEnd) :
    (runSets ((t1, v1) :: l) c).2 = [] ∧
    ((runSets ((t1, v1) :: l) c).1.elapse tEnd).2 =
      c.subscribers.map
        (fun r => ⟨r, (lastTimeVal t1 v1 l).2,
          some (lastOld c.value v1 l)⟩) ∧
    ((runSets ((t1, v1) :: l) c).1.elapse tEnd).1 =
      { c with
          value := (lastTimeVal t1 v1 l).2
          history := c.history ++ [(lastTimeVal t1 v1 l).2]
          debounceTimeout := none } ∧
    (runSets ((t1, v1) :: l) c).1.value = (lastTimeVal t1 v1 l).2 := by
  simp only [chainB, Bool.and_eq_true, decide_eq_true_eq] at hchain
  obtain ⟨⟨⟨hle, hlt⟩, hne⟩, hrest⟩ := hchain
  have hD' : (D != 0) = true := by simpa using hD
  have helapse : c.elapse t1 = (c, []) := by
    simp [BasicObservable.elapse, clearDueThrottle, htt, hdt]
  have hset : c.set t1 v1 =
      ⟨{ c with
          value := v1
          debounceTimeout := some (t1 + D, v1, c.value) }, [], none⟩ := by
    obtain ⟨st, subs, val, opts, hist, dt, tt⟩ := c
    simp only at hstate hopt hdt htt hne
    subst hstate hopt hdt htt
    simp [BasicObservable.set, notify, optTruthy, hD', hne]
  have hrec := runSets_debounce_pending D hD l
    { c with value := v1, debounceTimeout := some (t1 + D, v1, c.value) }
    t1 c.value hstate hopt htt rfl hrest
  have hrun : runSets ((t1, v1) :: l) c =
      ({ c with
          value := (lastTimeVal t1 v1 l).2
          debounceTimeout := some ((lastTimeVal t1 v1 l).1 + D,
            (lastTimeVal t1 v1 l).2, lastOld c.value v1 l) }, []) := by
    simp only [runSets, helapse, hset, hrec]
    simp [lastTimeVal, lastOld]
  refine ⟨by simp [hrun], ?_, ?_, by simp [hrun]⟩ <;>
    simp [hrun, BasicObservable.elapse, clearDueThrottle, htt, hEnd, deliver]

/-- Witness for C2 with `D = 10`, two calls at 0 ms and 1 ms, one
subscriber: the settled notification carries `(2, some 1)`. -/
theorem claim_C2_witness :
    ((10 : Nat) ≠ 0 ∧ [(1, 2)] ≠ ([] : List (Nat × Nat))) ∧
    ((runSets [(0, 1), (1, 2)]
        ((BasicObservable.create (0 : Nat)
          ⟨some 10, none⟩).subscribe 7).1).2 = [] ∧
      ((runSets [(0, 1), (1, 2)]
          ((BasicObservable.create (0 : Nat)
            ⟨some 10, none⟩).subscribe 7).1).1.elapse 11).2 =
        ((BasicObservable.create (0 : Nat)
          ⟨some 10, none⟩).subscribe 7).1.subscribers.map
          (fun r => ⟨r, (lastTimeVal 0 1 [(1, 2)]).2,
            some (lastOld ((BasicObservable.create (0 : Nat)
              ⟨some 10, none⟩).subscribe 7).1.value 1 [(1, 2)])⟩) ∧
      ((runSets [(0, 1), (1, 2)]
          ((BasicObservable.create (0 : Nat)
            ⟨some 10, none⟩).subscribe 7).1).1.elapse 11).1 =
        { ((BasicObservable.create (0 : Nat)
            ⟨some 10, none⟩).subscribe 7).1 with
            value := (lastTimeVal 0 1 [(1, 2)]).2
            history := ((BasicObservable.create (0 : Nat)
              ⟨some 10, none⟩).subscribe 7).1.history ++
              [(lastTimeVal 0 1 [(1, 2)]).2]
            debounceTimeout := none } ∧
      (runSets [(0, 1), (1, 2)]
          ((BasicObservable.create (0 : Nat)
            ⟨some 10, none⟩).subscribe 7).1).1.value =
        (lastTimeVal 0 1 [(1, 2)]).2) :=
  ⟨⟨by decide, by decide⟩,
   claim_C2 ((BasicObservable.create (0 : Nat) ⟨some 10, none⟩).subscribe 7).1
     10 (by decide) 0 1 [(1, 2)] 11 (by decide) (by decide) (by decide)
     (by decide) (by decide) (by decide) (by decide)⟩

/-- C8: `seal()` does not clear an outstanding debounce timer.  On a
cell with `debounce = 10` holding `0`, after `set 1` (starting a
pending timer) and then `seal()`, the pending timer is still present;
when it fires it invokes no subscriber (the list was cleared) but it
does push the captured value onto the history of the already sealed
cell — contradicting the claim that the timer is cleared and that
nothing is appended to history after sealing. -/
theorem claim_C8 :
    ((((BasicObservable.create (0 : Nat)
        ⟨some 10, none⟩).subscribe 5).1.set 0 1).cell.seal.debounceTimeout =
      some (10, 1, 0)) ∧
    ((((BasicObservable.create (0 : Nat)
        ⟨some 10, none⟩).subscribe 5).1.set 0 1).cell.seal.subscribers
      = []) ∧
    (((((BasicObservable.create (0 : Nat)
        ⟨some 10, none⟩).subscribe 5).1.set 0 1).cell.seal.elapse 10).2
      = []) ∧
    (((((BasicObservable.create (0 : Nat)
        ⟨some 10, none⟩).subscribe 5).1.set 0 1).cell.seal.elapse 10).1.history
      = [0, 1]) ∧
    (((((BasicObservable.create (0 : Nat)
        ⟨some 10, none⟩).subscribe 5).1.set 0 1).cell.seal.elapse 10).1.state
      = .sealed) := by
  decide

/-!
Multi-cell model for `bind`.  `bind(dependencies, compute)` registers,
on every dependency, a closure that re-reads all dependencies' current
values, re-runs `compute` and `set`s the target; `subscribe`
immediately invokes each closure once, and `bind` finally `set`s the
target once more explicitly.  Because those closures call back into
`set` of another cell, the model indexes cells by `Nat` in a system
and uses a fuel parameter for the mutual recursion between `set`,
`_notify` and the subscriber invocations. -/

/-- A subscriber entry of the multi-cell model: an external callback
(opaque, only logged) or one of the recompute closures `bind`
registers.  Either kind carries a `Nat` reference standing for the
function's JavaScript identity. -/
inductive SubEntry (V : Type) where
  | ext (ref : Nat)
  | recompute (ref : Nat) (target : Nat) (deps : List Nat)
      (compute : List V → V)

/-- The identity reference of a subscriber entry. -/
def SubEntry.ref {V : Type} : SubEntry V → Nat
  | .ext r => r
  | .recompute r _ _ _ => r

/-- Whether an entry is an external (non-recomputing) callback. -/
def SubEntry.isExt {V : Type} : SubEntry V → Bool
  | .ext _ => true
  | .recompute _ _ _ _ => false

/-- A cell of the multi-cell model; fields as in `BasicObservable`. -/
structure SysCell (V : Type) where
  state : ObservableState
  subscribers : List (SubEntry V)
  value : V
  options : ObservableOptions
  history : List V
  debounceTimeout : Option (Nat × V × V)
  throttleTimeout : Option Nat

/-- A system of cells, indexed by `Nat`. -/
abbrev Sys (V : Type) : Type := Nat → SysCell V

/-- Replace cell `i` of the system by `f` of it. -/
def modifyCell (s : Sys V) (i : Nat) (f : SysCell V → SysCell V) : Sys V :=
  fun j => if j = i then f (s j) else s j

/-- The operations threaded through the fuel-bounded interpreter. -/
inductive SysOp (V : Type) where
  | set (now i : Nat) (v : V)
  | notify (now i : Nat) (newValue oldValue : V)

/-- Invoke one subscriber entry: an external callback is logged as an
`Event`; a recompute closure ignores its arguments, re-reads all
dependency values fresh from the current system, re-runs `compute`
and `set`s the target (a `SealedMutationError` from that `set` is
swallowed, as the rejected promise of the `async` closure is unhandled
in the source). -/
def applySub
    (recur : SysOp V → Sys V → Sys V × List (Event V) × Option MutationError)
    (now : Nat) (nv : V) (ov : Option V)
    (acc : Sys V × List (Event V)) (e : SubEntry V) :
    Sys V × List (Event V) :=
  match e with
  | .ext r => (acc.1, acc.2 ++ [⟨r, nv, ov⟩])
  | .recompute _ tgt deps f =>
    let r := recur (.set now tgt (f (deps.map (fun j => (acc.1 j).value)))) acc.1
    (r.1, acc.2 ++ r.2.1)

/-- Fuel-bounded interpreter for `set` and `_notify` on a system,
mirroring `BasicObservable.set` / `notify` cell-by-cell; the
subscriber loop threads the system through `applySub` so that
recompute closures can `set` other cells. -/
def sysRun : Nat → SysOp V → Sys V →
    Sys V × List (Event V) × Option MutationError
  | 0, _, s => (s, [], none)
  | fuel + 1, .set now i v, s =>
    if (s i).state = .sealed then (s, [], some .sealedMutation)
    else
      let oldValue := (s i).value
      let s1 := modifyCell s i (fun c => { c with value := v })
      let r := sysRun fuel (.notify now i v oldValue) s1
      (r.1, r.2.1, none)
  | fuel + 1, .notify now i nv ov, s =>
    if (s i).state = .muted then (s, [], none)
    else if nv = ov then (s, [], none)
    else if optTruthy (s i).options.throttle && (s i).throttleTimeout.isSome
    then (s, [], none)
    else
      let s1 :=
        if optTruthy (s i).options.throttle then
          modifyCell s i (fun c =>
            { c with throttleTimeout := some (now + c.options.throttle.getD 0) })
        else s
      if optTruthy (s1 i).options.debounce then
        (modifyCell s1 i (fun c =>
          { c with
              debounceTimeout :=
                some (now + c.options.debounce.getD 0, nv, ov) }), [], none)
      else
        let r := ((s1 i).subscribers).foldl
          (applySub (sysRun fuel) now nv (some ov)) (s1, [])
        (modifyCell r.1 i (fun c => { c with history := c.history ++ [nv] }),
         r.2, none)

/-- `subscribe` on cell `i` of the system: append the entry, then
immediately invoke it once with the current value and second-to-last
history entry. -/
def sysSubscribe (fuel : Nat) (s : Sys V) (now i : Nat) (e : SubEntry V) :
    Sys V × List (Event V) :=
  let s1 := modifyCell s i (fun c =>
    { c with subscribers := c.subscribers ++ [e] })
  applySub (sysRun fuel) now ((s1 i).value)
    ((s1 i).history.reverse.get? 1) (s1, []) e

/-- The unsubscribe closure for cell `i`: filter out every entry whose
identity reference is `r`. -/
def sysUnsubscribe (s : Sys V) (i : Nat) (r : Nat) : Sys V :=
  modifyCell s i (fun c =>
    { c with subscribers := c.subscribers.filter (fun e => e.ref ≠ r) })

/-- The subscription loop of `bind`: for each `(dependency, reference)`
pair, subscribe a recompute closure on that dependency (each closure
is a fresh JavaScript object, so each gets its own reference). -/
def sysBindLoop (fuel now target : Nat) (deps : List Nat)
    (f : List V → V) : List (Nat × Nat) → Sys V → Sys V × List (Event V)
  | [], s => (s, [])
  | (dep, r) :: rest, s =>
    let r1 := sysSubscribe fuel s now dep (.recompute r target deps f)
    let r2 := sysBindLoop fuel now target deps f rest r1.1
    (r2.1, r1.2 ++ r2.2)

/-- `bind(dependencies, compute)` on the target cell: subscribe a
recompute closure on every dependency (each invoked once immediately
by `subscribe`), then `set` the target once more with `compute` over
the dependencies' current values. -/
def sysBind (fuel : Nat) (s : Sys V) (now target : Nat)
    (pairs : List (Nat × Nat)) (f : List V → V) :
    Sys V × List (Event V) :=
  let deps := pairs.map Prod.fst
  let r1 := sysBindLoop fuel now target deps f pairs s
  let r2 := sysRun fuel
    (.set now target (f (deps.map (fun j => (r1.1 j).value)))) r1.1
  (r2.1, r1.2 ++ r2.2.1)

/-- The teardown closure returned by `bind`: run every stored
unsubscriber. -/
def sysTeardown (s : Sys V) (pairs : List (Nat × Nat)) : Sys V :=
  pairs.foldl (fun s p => sysUnsubscribe s p.1 p.2) s

theorem modifyCell_same (s : Sys V) (i : Nat) (f : SysCell V → SysCell V) :
    (modifyCell s i f) i = f (s i) := by
  simp [modifyCell]

theorem modifyCell_other (s : Sys V) (i j : Nat)
    (f : SysCell V → SysCell V) (h : ¬ j = i) :
    (modifyCell s i f) j = s j := by
  simp [modifyCell, h]

/-- Helper: folding the subscriber loop over external-only entries
leaves the system untouched and logs one event per entry. -/
theorem foldl_applySub_ext
    (recur : SysOp V → Sys V → Sys V × List (Event V) × Option MutationError)
    (now : Nat) (nv : V) (ov : Option V) :
    ∀ (subs : List (SubEntry V)) (s : Sys V) (acc : List (Event V)),
      subs.all SubEntry.isExt = true →
      subs.foldl (applySub recur now nv ov) (s, acc) =
        (s, acc ++ subs.map (fun e => ⟨e.ref, nv, ov⟩)) := by
  intro subs
  induction subs with
  | nil => intro s acc _; simp
  | cons e rest ih =>
    intro s acc h
    simp only [List.all_cons, Bool.and_eq_true] at h
    obtain ⟨he, hrest⟩ := h
    cases e with
    | ext r =>
      simp [List.foldl_cons, applySub, ih s (acc ++ [⟨r, nv, ov⟩]) hrest,
        SubEntry.ref]
    | recompute r t d f => simp [SubEntry.isExt] at he

/-- Helper: a `set` on a cell without timing options whose subscribers
are all external updates only that cell's value (and possibly its
history), does not error, and leaves every other cell untouched. -/
theorem sysRun_set_ext (fuel now i : Nat) (v : V) (s : Sys V)
    (hseal : ¬ (s i).state = .sealed)
    (hopt : (s i).options = ⟨none, none⟩)
    (hext : (s i).subscribers.all SubEntry.isExt = true) :
    ((sysRun (fuel + 2) (.set now i v) s).1 i).value = v ∧
    ((sysRun (fuel + 2) (.set now i v) s).1 i).state = (s i).state ∧
    ((sysRun (fuel + 2) (.set now i v) s).1 i).subscribers =
      (s i).subscribers ∧
    ((sysRun (fuel + 2) (.set now i v) s).1 i).options = (s i).options ∧
    (∀ j, ¬ j = i → (sysRun (fuel + 2) (.set now i v) s).1 j = s j) ∧
    (sysRun (fuel + 2) (.set now i v) s).2.2 = none := by
  have hthr : optTruthy (s i).options.throttle = false := by
    rw [hopt]; rfl
  have hdeb : optTruthy (s i).options.debounce = false := by
    rw [hopt]; rfl
  by_cases hmut : (s i).state = .muted
  · have heq : sysRun (fuel + 2) (.set now i v) s =
        (modifyCell s i (fun c => { c with value := v }), [], none) := by
      simp [sysRun, hseal, hmut, modifyCell]
    refine ⟨by simp [heq, modifyCell], by simp [heq, modifyCell],
      by simp [heq, modifyCell], by simp [heq, modifyCell], ?_,
      by simp [heq]⟩
    intro j hj
    simp [heq, modifyCell, hj]
  · by_cases hveq : v = (s i).value
    · have heq : sysRun (fuel + 2) (.set now i v) s =
          (modifyCell s i (fun c => { c with value := v }), [], none) := by
        simp [sysRun, hseal, hmut, hveq, modifyCell]
      refine ⟨by simp [heq, modifyCell], by simp [heq, modifyCell],
        by simp [heq, modifyCell], by simp [heq, modifyCell], ?_,
        by simp [heq]⟩
      intro j hj
      simp [heq, modifyCell, hj]
    · have hfold := foldl_applySub_ext (sysRun fuel) now v (some ((s i).value))
        ((s i).subscribers)
        (modifyCell s i (fun c => { c with value := v })) [] hext
      have heq : sysRun (fuel + 2) (.set now i v) s =
          (modifyCell (modifyCell s i (fun c => { c with value := v })) i
            (fun c => { c with history := c.history ++ [v] }),
           (s i).subscribers.map (fun e => ⟨e.ref, v, some ((s i).value)⟩),
           none) := by
        simp [sysRun, hseal, hmut, hveq, hthr, hdeb, modifyCell, hfold]
      refine ⟨by simp [heq, modifyCell], by simp [heq, modifyCell],
        by simp [heq, modifyCell], by simp [heq, modifyCell], ?_,
        by simp [heq]⟩
      intro j hj
      simp [heq, modifyCell, hj]

/-- Helper: unfolding one step of the subscription loop. -/
theorem sysBindLoop_cons (fuel now target dep r : Nat) (deps : List Nat)
    (f : List V → V) (rest : List (Nat × Nat)) (s : Sys V) :
    sysBindLoop fuel now target deps f ((dep, r) :: rest) s =
      ((sysBindLoop fuel now target deps f rest
          (sysSubscribe fuel s now dep (.recompute r target deps f)).1).1,
        (sysSubscribe fuel s now dep (.recompute r target deps f)).2 ++
        (sysBindLoop fuel now target deps f rest
          (sysSubscribe fuel s now dep (.recompute r target deps f)).1).2) :=
  rfl

/-- Helper: the system after subscribing a recompute closure is the
system after that closure's immediate invocation, i.e. after the
induced `set` of the target on the subscriber-extended system. -/
theorem sysSubscribe_recompute (fuel now dep r target : Nat)
    (deps : List Nat) (f : List V → V) (s : Sys V) :
    (sysSubscribe fuel s now dep (.recompute r target deps f)).1 =
      (sysRun fuel (.set now target
        (f (deps.map (fun j =>
          ((modifyCell s dep (fun c =>
            { c with subscribers :=
                c.subscribers ++ [.recompute r target deps f] })) j).value))))
        (modifyCell s dep (fun c =>
          { c with subscribers :=
              c.subscribers ++ [.recompute r target deps f] }))).1 :=
  rfl

/-- Helper: a cell modification that preserves the value preserves
every cell's value. -/
theorem modifyCell_value_eq (s : Sys V) (i : Nat)
    (f : SysCell V → SysCell V) (hf : ∀ c, (f c).value = c.value) (j : Nat) :
    ((modifyCell s i f) j).value = (s j).value := by
  by_cases h : j = i <;> simp [modifyCell, h, hf]

/-- Helper: the subscription loop of `bind` over pairs of dependency
indices and closure references: every non-target cell keeps its value,
state and options and gets exactly its own recompute entries appended;
the target cell keeps state, options and subscribers, and — as soon as
at least one closure was subscribed (and hence immediately invoked) —
holds `compute` of the dependencies' values. -/
theorem sysBindLoop_spec (fuel now target : Nat) (deps : List Nat)
    (f : List V → V) :
    ∀ (pairs : List (Nat × Nat)) (s : Sys V),
      (∀ p ∈ pairs, p.1 ∈ deps) →
      target ∉ deps →
      ¬ (s target).state = .sealed →
      (s target).options = ⟨none, none⟩ →
      (s target).subscribers.all SubEntry.isExt = true →
      (∀ j, ¬ j = target →
        (((sysBindLoop (fuel + 2) now target deps f pairs s).1 j).value
            = (s j).value ∧
          ((sysBindLoop (fuel + 2) now target deps f pairs s).1 j).state
            = (s j).state ∧
          ((sysBindLoop (fuel + 2) now target deps f pairs s).1 j).options
            = (s j).options ∧
          ((sysBindLoop (fuel + 2) now target deps f pairs s).1 j).subscribers
            = (s j).subscribers ++
              (pairs.filter (fun p => p.1 = j)).map
                (fun p => SubEntry.recompute p.2 target deps f))) ∧
      ((sysBindLoop (fuel + 2) now target deps f pairs s).1 target).state
        = (s target).state ∧
      ((sysBindLoop (fuel + 2) now target deps f pairs s).1 target).options
        = (s target).options ∧
      ((sysBindLoop (fuel + 2) now target deps f pairs s).1 target).subscribers
        = (s target).subscribers ∧
      (¬ pairs = [] →
        ((sysBindLoop (fuel + 2) now target deps f pairs s).1 target).value
          = f (deps.map (fun j => (s j).value))) := by
  intro pairs
  induction pairs with
  | nil =>
    intro s hp htd hseal hopt hext
    simp [sysBindLoop]
  | cons pr rest ih =>
    obtain ⟨dep, r⟩ := pr
    intro s hp htd hseal hopt hext
    have hdep : dep ∈ deps := hp (dep, r) (List.mem_cons_self _ _)
    have hdt : ¬ dep = target := fun h => htd (h ▸ hdep)
    have htd2 : ¬ target = dep := fun h => hdt h.symm
    simp only [sysBindLoop_cons, sysSubscribe_recompute]
    set s1 : Sys V := modifyCell s dep (fun c =>
      { c with subscribers :=
          c.subscribers ++ [.recompute r target deps f] }) with hs1
    have hs1val : ∀ j, (s1 j).value = (s j).value := by
      intro j
      exact modifyCell_value_eq s dep
        (fun c => { c with subscribers :=
          c.subscribers ++ [.recompute r target deps f] })
        (fun c => rfl) j
    have hs1tgt : s1 target = s target := modifyCell_other s dep target _ htd2
    have hrun := sysRun_set_ext fuel now target
      (f (deps.map (fun j => (s1 j).value))) s1
      (by rw [hs1tgt]; exact hseal) (by rw [hs1tgt]; exact hopt)
      (by rw [hs1tgt]; exact hext)
    set s2 : Sys V := (sysRun (fuel + 2) (.set now target
      (f (deps.map (fun j => (s1 j).value)))) s1).1 with hs2
    obtain ⟨hv2, hst2, hsub2, hop2, hoth2, _⟩ := hrun
    have hs2dep : ∀ j, ¬ j = target → s2 j = s1 j := hoth2
    have hih := ih s2 (fun p hpmem => hp p (List.mem_cons_of_mem _ hpmem)) htd
      (by rw [hst2, hs1tgt]; exact hseal)
      (by rw [hop2, hs1tgt]; exact hopt)
      (by rw [hsub2, hs1tgt]; exact hext)
    obtain ⟨hihj, hihst, hihop, hihsub, hihval⟩ := hih
    have hmapvals : deps.map (fun j => (s2 j).value)
        = deps.map (fun j => (s j).value) := by
      apply List.map_congr_left
      intro j hj
      have hjt : ¬ j = target := fun h => htd (h ▸ hj)
      rw [hs2dep j hjt, hs1val j]
    refine ⟨?_, ?_, ?_, ?_, ?_⟩
    · intro j hj
      obtain ⟨hj1, hj2, hj3, hj4⟩ := hihj j hj
      refine ⟨?_, ?_, ?_, ?_⟩
      · rw [hj1, hs2dep j hj, hs1val j]
      · rw [hj2, hs2dep j hj]
        by_cases hjd : j = dep <;> simp [hs1, modifyCell, hjd]
      · rw [hj3, hs2dep j hj]
        by_cases hjd : j = dep <;> simp [hs1, modifyCell, hjd]
      · rw [hj4, hs2dep j hj]
        by_cases hjd : j = dep
        · subst hjd
          simp [hs1, modifyCell, List.filter_cons]
        · have hdj : ¬ dep = j := fun h => hjd h.symm
          simp [hs1, modifyCell, hjd, List.filter_cons, hdj]
    · rw [hihst, hst2, hs1tgt]
    · rw [hihop, hop2, hs1tgt]
    · rw [hihsub, hsub2, hs1tgt]
    · intro _
      by_cases hrest : rest = []
      · subst hrest
        simp only [sysBindLoop]
        rw [hv2]
        exact congrArg f (List.map_congr_left (fun j _ => hs1val j))
      · rw [hihval hrest, hmapvals]

/-- Helper: one unfolding step of `set` on an unsealed cell. -/
theorem sysRun_set_unfold (fuel now i : Nat) (v : V) (s : Sys V)
    (h : ¬ (s i).state = .sealed) :
    sysRun (fuel + 1) (.set now i v) s =
      ((sysRun fuel (.notify now i v ((s i).value))
          (modifyCell s i (fun c => { c with value := v }))).1,
       (sysRun fuel (.notify now i v ((s i).value))
          (modifyCell s i (fun c => { c with value := v }))).2.1,
       none) := by
  simp [sysRun, h]

/-- Helper: one unfolding step of `_notify` on an unmuted cell without
timing options and with a changed value: run the subscriber loop, then
push the new value onto the history. -/
theorem sysRun_notify_deliver (fuel now i : Nat) (nv ov : V) (s : Sys V)
    (hmut : ¬ (s i).state = .muted) (hne : ¬ nv = ov)
    (hopt : (s i).options = ⟨none, none⟩) :
    sysRun (fuel + 1) (.notify now i nv ov) s =
      (modifyCell (((s i).subscribers).foldl
          (applySub (sysRun fuel) now nv (some ov)) (s, [])).1 i
        (fun c => { c with history := c.history ++ [nv] }),
       (((s i).subscribers).foldl
          (applySub (sysRun fuel) now nv (some ov)) (s, [])).2,
       none) := by
  have hthr : optTruthy (s i).options.throttle = false := by rw [hopt]; rfl
  have hdeb : optTruthy (s i).options.debounce = false := by rw [hopt]; rfl
  simp [sysRun, hmut, hne, hthr, hdeb]

/-- Helper: a `set` with a fresh value on a dependency cell whose
subscriber list is external callbacks followed by one recompute
closure: the dependency takes the new value, the closure fires and
recomputes the target from the dependencies' then-current values, and
every cell other than the dependency and the target is untouched. -/
theorem sysRun_set_dep_recompute (fuel now dep tgt r : Nat) (v : V)
    (deps : List Nat) (f : List V → V) (pre : List (SubEntry V)) (s : Sys V)
    (hdt : ¬ tgt = dep)
    (hstate : (s dep).state = .unsealed)
    (hopt : (s dep).options = ⟨none, none⟩)
    (hsubs : (s dep).subscribers = pre ++ [.recompute r tgt deps f])
    (hpre : pre.all SubEntry.isExt = true)
    (hveq : ¬ v = (s dep).value)
    (htgtseal : ¬ (s tgt).state = .sealed)
    (htgtopt : (s tgt).options = ⟨none, none⟩)
    (htgtext : (s tgt).subscribers.all SubEntry.isExt = true)
    (htgtdeps : tgt ∉ deps) :
    (((sysRun (fuel + 4) (.set now dep v) s).1 tgt).value
        = f (deps.map (fun j =>
            ((sysRun (fuel + 4) (.set now dep v) s).1 j).value))) ∧
    ((sysRun (fuel + 4) (.set now dep v) s).1 dep).value = v ∧
    ((sysRun (fuel + 4) (.set now dep v) s).1 tgt).subscribers
      = (s tgt).subscribers ∧
    (∀ j, ¬ j = dep → ¬ j = tgt →
      (sysRun (fuel + 4) (.set now dep v) s).1 j = s j) := by
  have hseal : ¬ (s dep).state = .sealed := by rw [hstate]; simp
  have htgtd : ¬ dep = tgt := fun h => hdt h.symm
  have hs1tgt : (modifyCell s dep (fun c => { c with value := v })) tgt
      = s tgt := modifyCell_other s dep tgt _ hdt
  have hrunB := sysRun_set_ext fuel now tgt
    (f (deps.map (fun j =>
      ((modifyCell s dep (fun c => { c with value := v })) j).value)))
    (modifyCell s dep (fun c => { c with value := v }))
    (by rw [hs1tgt]; exact htgtseal) (by rw [hs1tgt]; exact htgtopt)
    (by rw [hs1tgt]; exact htgtext)
  obtain ⟨hBv, hBst, hBsub, hBop, hBoth, _⟩ := hrunB
  have hfoldpre := foldl_applySub_ext (sysRun (fuel + 2)) now v
    (some ((s dep).value)) pre
    (modifyCell s dep (fun c => { c with value := v })) [] hpre
  have hmut1 : ¬ ((modifyCell s dep (fun c =>
      { c with value := v })) dep).state = .muted := by
    rw [modifyCell_same]
    simp only
    rw [hstate]
    simp
  have hopt1 : ((modifyCell s dep (fun c =>
      { c with value := v })) dep).options = ⟨none, none⟩ := by
    rw [modifyCell_same]
    simpa using hopt
  have hsubs1 : ((modifyCell s dep (fun c =>
      { c with value := v })) dep).subscribers
      = pre ++ [.recompute r tgt deps f] := by
    rw [modifyCell_same]
    simpa using hsubs
  have hstep : sysRun (fuel + 4) (.set now dep v) s =
      (modifyCell ((sysRun (fuel + 2) (.set now tgt
          (f (deps.map (fun j =>
            ((modifyCell s dep (fun c => { c with value := v })) j).value))))
          (modifyCell s dep (fun c => { c with value := v }))).1) dep
        (fun c => { c with history := c.history ++ [v] }),
       (pre.map (fun e => ⟨e.ref, v, some ((s dep).value)⟩) ++
        (sysRun (fuel + 2) (.set now tgt
          (f (deps.map (fun j =>
            ((modifyCell s dep (fun c => { c with value := v })) j).value))))
          (modifyCell s dep (fun c => { c with value := v }))).2.1),
       none) := by
    rw [show fuel + 4 = (fuel + 3) + 1 from rfl,
      sysRun_set_unfold (fuel + 3) now dep v s hseal,
      show fuel + 3 = (fuel + 2) + 1 from rfl,
      sysRun_notify_deliver (fuel + 2) now dep v ((s dep).value) _
        hmut1 hveq hopt1,
      hsubs1, List.foldl_append, hfoldpre]
    simp [applySub]
  rw [hstep]
  dsimp only
  have hfinal_other : ∀ j, ¬ j = dep → ¬ j = tgt →
      (modifyCell ((sysRun (fuel + 2) (.set now tgt
          (f (deps.map (fun j =>
            ((modifyCell s dep (fun c => { c with value := v })) j).value))))
          (modifyCell s dep (fun c => { c with value := v }))).1) dep
        (fun c => { c with history := c.history ++ [v] })) j = s j := by
    intro j hjd hjt
    rw [modifyCell_other _ _ _ _ hjd, hBoth j hjt,
      modifyCell_other _ _ _ _ hjd]
  refine ⟨?_, ?_, ?_, hfinal_other⟩
  · rw [modifyCell_other _ _ _ _ hdt, hBv]
    apply congrArg f
    apply List.map_congr_left
    intro j hj
    have hjt : ¬ j = tgt := fun h => htgtdeps (h ▸ hj)
    have hBj := hBoth j hjt
    by_cases hjd : j = dep
    · subst hjd
      simp [modifyCell_same, hBj]
    · simp [modifyCell_other, hjd, hBj]
  · have hBdep := hBoth dep htgtd
    simp [modifyCell_same, hBdep]
  · rw [modifyCell_other _ _ _ _ hdt, hBsub, hs1tgt]

/-- Helper: unfolding one step of the teardown loop. -/
theorem sysTeardown_cons (s : Sys V) (i r : Nat)
    (rest : List (Nat × Nat)) :
    sysTeardown s ((i, r) :: rest) =
      sysTeardown (sysUnsubscribe s i r) rest :=
  rfl

/-- Helper: teardown leaves cells that are not a dependency alone. -/
theorem sysTeardown_not_mem :
    ∀ (pairs : List (Nat × Nat)) (s : Sys V) (j : Nat),
      j ∉ pairs.map Prod.fst → (sysTeardown s pairs) j = s j := by
  intro pairs
  induction pairs with
  | nil => intro s j _; rfl
  | cons p rest ih =>
    obtain ⟨i, r⟩ := p
    intro s j h
    simp only [List.map_cons, List.mem_cons] at h
    push_neg at h
    rw [sysTeardown_cons, ih _ j h.2, sysUnsubscribe,
      modifyCell_other _ _ _ _ h.1]

/-- Helper: with pairwise-distinct dependency indices, teardown
filters exactly the recompute closure's reference out of each
dependency's subscriber list. -/
theorem sysTeardown_mem :
    ∀ (pairs : List (Nat × Nat)), (pairs.map Prod.fst).Nodup →
      ∀ (s : Sys V) (dep r : Nat), (dep, r) ∈ pairs →
        (sysTeardown s pairs) dep =
          { s dep with subscribers :=
              (s dep).subscribers.filter (fun e => e.ref ≠ r) } := by
  intro pairs
  induction pairs with
  | nil => intro _ s dep r h; simp at h
  | cons p rest ih =>
    obtain ⟨i, ri⟩ := p
    intro hnd s dep r hmem
    simp only [List.map_cons, List.nodup_cons] at hnd
    obtain ⟨hni, hnd2⟩ := hnd
    rcases List.mem_cons.mp hmem with heq | hmem2
    · injection heq with h1 h2
      subst h1
      subst h2
      rw [sysTeardown_cons, sysTeardown_not_mem rest _ dep hni,
        sysUnsubscribe, modifyCell_same]
    · have hdep_in : dep ∈ rest.map Prod.fst :=
        List.mem_map_of_mem Prod.fst hmem2
      have hdi : ¬ dep = i := fun h => hni (h ▸ hdep_in)
      rw [sysTeardown_cons, ih hnd2 _ dep r hmem2, sysUnsubscribe,
        modifyCell_other _ _ _ _ hdi]

/-- Helper: tearing down twice is the same as tearing down once. -/
theorem sysTeardown_idem (pairs : List (Nat × Nat))
    (hnd : (pairs.map Prod.fst).Nodup) (s : Sys V) :
    sysTeardown (sysTeardown s pairs) pairs = sysTeardown s pairs := by
  funext j
  by_cases hj : j ∈ pairs.map Prod.fst
  · obtain ⟨p, hp, hpj⟩ := List.mem_map.mp hj
    obtain ⟨j2, r⟩ := p
    simp only at hpj
    subst hpj
    rw [sysTeardown_mem pairs hnd _ j2 r hp,
      sysTeardown_mem pairs hnd s j2 r hp]
    simp [List.filter_filter]
  · rw [sysTeardown_not_mem pairs _ j hj]

/-- Helper: with pairwise-distinct first components, filtering the
pairs for one member's first component finds exactly that member. -/
theorem filter_fst_of_nodup :
    ∀ (pairs : List (Nat × Nat)), (pairs.map Prod.fst).Nodup →
      ∀ p ∈ pairs, pairs.filter (fun q => q.1 = p.1) = [p] := by
  intro pairs
  induction pairs with
  | nil => intro _ p h; simp at h
  | cons q rest ih =>
    obtain ⟨i, ri⟩ := q
    intro hnd p hmem
    simp only [List.map_cons, List.nodup_cons] at hnd
    obtain ⟨hni, hnd2⟩ := hnd
    rcases List.mem_cons.mp hmem with heq | hmem2
    · subst heq
      have hrest : rest.filter (fun q => q.1 = (i, ri).1) = [] := by
        apply List.filter_eq_nil_iff.mpr
        intro a ha
        simp only [decide_eq_true_eq]
        intro hq
        exact hni (hq ▸ List.mem_map_of_mem Prod.fst ha)
      simp [List.filter_cons, hrest]
    · have hp_in : p.1 ∈ rest.map Prod.fst :=
        List.mem_map_of_mem Prod.fst hmem2
      have hpi : ¬ i = p.1 := fun h => hni (h ▸ hp_in)
      simp only [List.filter_cons]
      rw [if_neg (by simpa using hpi), ih hnd2 p hmem2]

/-- C7: `bind` over a non-empty list of source cells (given as pairs
of a cell index and the fresh identity reference of the closure
registered on it) synchronously sets the target's value to `compute`
over the sources' current values; afterwards, a `set` with a fresh
value on any source recomputes the target from all sources'
then-current values; the teardown closure removes exactly the
registered closures from every source (restoring the original
subscriber lists), is idempotent, and afterwards a source `set` leaves
the target cell completely unchanged. -/
theorem claim_C7 (fuel now : Nat) (s : Sys V) (target : Nat)
    (pairs : List (Nat × Nat)) (f : List V → V)
    (hne : ¬ pairs = [])
    (hnd : (pairs.map Prod.fst).Nodup)
    (htd : target ∉ pairs.map Prod.fst)
    (hseal : ¬ (s target).state = .sealed)
    (hopt : (s target).options = ⟨none, none⟩)
    (hext : (s target).subscribers.all SubEntry.isExt = true)
    (hdstate : ∀ p ∈ pairs, (s p.1).state = .unsealed)
    (hdopt : ∀ p ∈ pairs, (s p.1).options = ⟨none, none⟩)
    (hdext : ∀ p ∈ pairs, ((s p.1).subscribers).all SubEntry.isExt = true)
    (hfresh : ∀ p ∈ pairs, ∀ e ∈ (s p.1).subscribers,
      e.ref ∉ pairs.map Prod.snd) :
    (((sysBind (fuel + 2) s now target pairs f).1 target).value
        = f ((pairs.map Prod.fst).map (fun j => (s j).value))) ∧
    (∀ p ∈ pairs,
      ((sysBind (fuel + 2) s now target pairs f).1 p.1).value
        = (s p.1).value) ∧
    (∀ p ∈ pairs, ∀ (v : V) (now2 : Nat),
      ¬ v = ((sysBind (fuel + 2) s now target pairs f).1 p.1).value →
      ((sysRun (fuel + 4) (.set now2 p.1 v)
          (sysBind (fuel + 2) s now target pairs f).1).1 target).value
        = f ((pairs.map Prod.fst).map (fun j =>
            ((sysRun (fuel + 4) (.set now2 p.1 v)
              (sysBind (fuel + 2) s now target pairs f).1).1 j).value))) ∧
    (∀ p ∈ pairs,
      ((sysTeardown (sysBind (fuel + 2) s now target pairs f).1 pairs)
          p.1).subscribers = (s p.1).subscribers) ∧
    (sysTeardown
        (sysTeardown (sysBind (fuel + 2) s now target pairs f).1 pairs)
        pairs
      = sysTeardown (sysBind (fuel + 2) s now target pairs f).1 pairs) ∧
    (∀ p ∈ pairs, ∀ (v : V) (now3 : Nat),
      (sysRun (fuel + 4) (.set now3 p.1 v)
          (sysTeardown (sysBind (fuel + 2) s now target pairs f).1
            pairs)).1 target
        = (sysTeardown (sysBind (fuel + 2) s now target pairs f).1 pairs)
            target) := by
  have hB : (sysBind (fuel + 2) s now target pairs f).1 =
      (sysRun (fuel + 2) (.set now target
        (f ((pairs.map Prod.fst).map (fun j =>
          ((sysBindLoop (fuel + 2) now target (pairs.map Prod.fst) f pairs
            s).1 j).value))))
        (sysBindLoop (fuel + 2) now target (pairs.map Prod.fst) f pairs
          s).1).1 := rfl
  rw [hB]
  set R1 : Sys V :=
    (sysBindLoop (fuel + 2) now target (pairs.map Prod.fst) f pairs s).1
    with hR1
  set S1 : Sys V := (sysRun (fuel + 2) (.set now target
    (f ((pairs.map Prod.fst).map (fun j => (R1 j).value)))) R1).1 with hS1
  have hne_t : ∀ p : Nat × Nat, p ∈ pairs → ¬ p.1 = target :=
    fun p hp h => htd (h ▸ List.mem_map_of_mem Prod.fst hp)
  have hloop := sysBindLoop_spec fuel now target (pairs.map Prod.fst) f
    pairs s (fun p hp => List.mem_map_of_mem Prod.fst hp) htd hseal hopt
    hext
  obtain ⟨hLj0, hLst0, hLop0, hLsub0, _⟩ := hloop
  have hLj : ∀ j, ¬ j = target → (R1 j).value = (s j).value ∧
      (R1 j).state = (s j).state ∧ (R1 j).options = (s j).options ∧
      (R1 j).subscribers = (s j).subscribers ++
        (pairs.filter (fun p => p.1 = j)).map
          (fun p => SubEntry.recompute p.2 target (pairs.map Prod.fst) f) :=
    hLj0
  have hLst : (R1 target).state = (s target).state := hLst0
  have hLop : (R1 target).options = (s target).options := hLop0
  have hLsub : (R1 target).subscribers = (s target).subscribers := hLsub0
  have hfin := sysRun_set_ext fuel now target
    (f ((pairs.map Prod.fst).map (fun j => (R1 j).value))) R1
    (by rw [hLst]; exact hseal) (by rw [hLop]; exact hopt)
    (by rw [hLsub]; exact hext)
  obtain ⟨hFv0, hFst0, hFsub0, hFop0, hFoth0, _⟩ := hfin
  have hFv : (S1 target).value =
      f ((pairs.map Prod.fst).map (fun j => (R1 j).value)) := hFv0
  have hFst : (S1 target).state = (R1 target).state := hFst0
  have hFsub : (S1 target).subscribers = (R1 target).subscribers := hFsub0
  have hFop : (S1 target).options = (R1 target).options := hFop0
  have hFoth : ∀ j, ¬ j = target → S1 j = R1 j := hFoth0
  have hS1subs : ∀ p ∈ pairs, (S1 p.1).subscribers =
      (s p.1).subscribers ++
        [SubEntry.recompute p.2 target (pairs.map Prod.fst) f] := by
    intro p hp
    rw [hFoth p.1 (hne_t p hp), (hLj p.1 (hne_t p hp)).2.2.2,
      filter_fst_of_nodup pairs hnd p hp]
    simp
  have hS1state : ∀ p ∈ pairs, (S1 p.1).state = .unsealed := by
    intro p hp
    rw [hFoth p.1 (hne_t p hp), (hLj p.1 (hne_t p hp)).2.1]
    exact hdstate p hp
  have hS1opt : ∀ p ∈ pairs, (S1 p.1).options = ⟨none, none⟩ := by
    intro p hp
    rw [hFoth p.1 (hne_t p hp), (hLj p.1 (hne_t p hp)).2.2.1]
    exact hdopt p hp
  have hTgtS1seal : ¬ (S1 target).state = .sealed := by
    rw [hFst, hLst]; exact hseal
  have hTgtS1opt : (S1 target).options = ⟨none, none⟩ := by
    rw [hFop, hLop]; exact hopt
  have hTgtS1ext : (S1 target).subscribers.all SubEntry.isExt = true := by
    rw [hFsub, hLsub]; exact hext
  have hclean : ∀ p ∈ pairs,
      ((sysTeardown S1 pairs) p.1).subscribers = (s p.1).subscribers := by
    intro p hp
    rw [sysTeardown_mem pairs hnd S1 p.1 p.2 hp]
    simp only
    rw [hS1subs p hp, List.filter_append]
    have h1 : ((s p.1).subscribers).filter (fun e => e.ref ≠ p.2)
        = (s p.1).subscribers := by
      apply List.filter_eq_self.mpr
      intro e he
      have hf : ¬ e.ref = p.2 := fun h =>
        hfresh p hp e he (by rw [h]; exact List.mem_map_of_mem Prod.snd hp)
      simpa using hf
    have h2 : ([SubEntry.recompute p.2 target (pairs.map Prod.fst)
        f]).filter (fun e => e.ref ≠ p.2) = [] := by
      simp [SubEntry.ref]
    rw [h1, h2, List.append_nil]
  refine ⟨?_, ?_, ?_, hclean, ?_, ?_⟩
  · rw [hFv]
    exact congrArg f (List.map_congr_left (fun j hj =>
      (hLj j (fun h => htd (h ▸ hj))).1))
  · intro p hp
    rw [hFoth p.1 (hne_t p hp)]
    exact (hLj p.1 (hne_t p hp)).1
  · intro p hp v now2 hv
    exact (sysRun_set_dep_recompute fuel now2 p.1 target p.2 v
      (pairs.map Prod.fst) f ((s p.1).subscribers) S1
      (fun h => hne_t p hp h.symm)
      (hS1state p hp) (hS1opt p hp) (hS1subs p hp) (hdext p hp) hv
      hTgtS1seal hTgtS1opt hTgtS1ext htd).1
  · exact sysTeardown_idem pairs hnd S1
  · intro p hp v now3
    have hT : (sysTeardown S1 pairs) p.1 =
        { S1 p.1 with subscribers :=
            (S1 p.1).subscribers.filter (fun e => e.ref ≠ p.2) } :=
      sysTeardown_mem pairs hnd S1 p.1 p.2 hp
    have hTstate : ((sysTeardown S1 pairs) p.1).state = .unsealed := by
      rw [hT]; exact hS1state p hp
    have hTopt : ((sysTeardown S1 pairs) p.1).options = ⟨none, none⟩ := by
      rw [hT]; exact hS1opt p hp
    have hText : ((sysTeardown S1 pairs) p.1).subscribers.all
        SubEntry.isExt = true := by
      rw [hclean p hp]; exact hdext p hp
    have hset := sysRun_set_ext (fuel + 2) now3 p.1 v (sysTeardown S1 pairs)
      (by rw [hTstate]; simp) hTopt hText
    have hoth := hset.2.2.2.2.1 target (fun h => hne_t p hp h.symm)
    have h44 : fuel + 4 = fuel + 2 + 2 := by omega
    rw [h44]
    exact hoth

/-- Concrete three-cell system for exercising `bind`: the target is
cell 0 (value 100, one external subscriber), the sources are cells 1
and 2 (values 10 and 20). -/
def bindWitnessSys : Sys Nat := fun j =>
  if j = 0 then ⟨.unsealed, [.ext 9], 100, {}, [100], none, none⟩
  else if j = 1 then ⟨.unsealed, [], 10, {}, [10], none, none⟩
  else if j = 2 then ⟨.unsealed, [], 20, {}, [20], none, none⟩
  else ⟨.unsealed, [], 0, {}, [0], none, none⟩

/-- Sum of a list of naturals, a sample compute function. -/
def sumList : List Nat → Nat := fun l => l.foldl Nat.add 0

/-- Witness for C7: binding cell 0 to sources 1 and 2 with the sum
compute function, then setting source 1, then tearing down. -/
theorem claim_C7_witness :
    (¬ ([(1, 50), (2, 51)] : List (Nat × Nat)) = [] ∧
      (([(1, 50), (2, 51)] : List (Nat × Nat)).map Prod.fst).Nodup) ∧
    (((sysBind (0 + 2) bindWitnessSys 0 0 [(1, 50), (2, 51)]
        sumList).1 0).value
      = sumList ((([(1, 50), (2, 51)] : List (Nat × Nat)).map
          Prod.fst).map (fun j => (bindWitnessSys j).value))) ∧
    (((sysBind (0 + 2) bindWitnessSys 0 0 [(1, 50), (2, 51)]
        sumList).1 1).value = (bindWitnessSys 1).value) ∧
    (((sysRun (0 + 4) (.set 0 1 11)
        (sysBind (0 + 2) bindWitnessSys 0 0 [(1, 50), (2, 51)]
          sumList).1).1 0).value
      = sumList ((([(1, 50), (2, 51)] : List (Nat × Nat)).map
          Prod.fst).map (fun j =>
            ((sysRun (0 + 4) (.set 0 1 11)
              (sysBind (0 + 2) bindWitnessSys 0 0 [(1, 50), (2, 51)]
                sumList).1).1 j).value))) ∧
    (((sysTeardown (sysBind (0 + 2) bindWitnessSys 0 0 [(1, 50), (2, 51)]
        sumList).1 [(1, 50), (2, 51)]) 1).subscribers
      = (bindWitnessSys 1).subscribers) ∧
    (sysTeardown
        (sysTeardown (sysBind (0 + 2) bindWitnessSys 0 0
          [(1, 50), (2, 51)] sumList).1 [(1, 50), (2, 51)])
        [(1, 50), (2, 51)]
      = sysTeardown (sysBind (0 + 2) bindWitnessSys 0 0
          [(1, 50), (2, 51)] sumList).1 [(1, 50), (2, 51)]) ∧
    ((sysRun (0 + 4) (.set 0 1 77)
        (sysTeardown (sysBind (0 + 2) bindWitnessSys 0 0
          [(1, 50), (2, 51)] sumList).1 [(1, 50), (2, 51)])).1 0
      = (sysTeardown (sysBind (0 + 2) bindWitnessSys 0 0
          [(1, 50), (2, 51)] sumList).1 [(1, 50), (2, 51)]) 0) := by
  have H := claim_C7 0 0 bindWitnessSys 0 [(1, 50), (2, 51)] sumList
    (by decide) (by decide) (by decide) (by decide) (by decide)
    (by decide) (by decide) (by decide) (by decide) (by decide)
  exact ⟨⟨by decide, by decide⟩, H.1, H.2.1 (1, 50) (by decide),
    H.2.2.1 (1, 50) (by decide) 11 0 (by decide),
    H.2.2.2.1 (1, 50) (by decide), H.2.2.2.2.1,
    H.2.2.2.2.2 (1, 50) (by decide) 77 0⟩

end Cheese
